import Mathlib

/-!
Verification of the solver layer of a small machine-learning toolkit
(`scripts/solvers.py`): the closed-form pseudoinverse solver `PInv`, the
generic batch `GradientDescent` solver, and the proximal `LassoISTA` solver.

Scalars are modelled as rationals; design matrices of shape `(n, d)` are
`Matrix (Fin n) (Fin d) ℚ`, targets are `Fin n → ℚ` (single output) or
`Matrix (Fin n) (Fin k) ℚ` (one-hot multiclass), weights are `Fin d → ℚ`
or `Matrix (Fin d) (Fin k) ℚ`.

External numeric primitives with no closed-form definition over ℚ — the
Moore–Penrose pseudoinverse `np.linalg.pinv` and the supremum-eigenvalue
estimate `supremum_eigen` — are abstract function parameters of the solvers,
as are the pluggable activation / loss-gradient strategies.  The `print`
calls reporting convergence are modelled by the `Bool` component of the
result: `true` for the log line reporting convergence, `false` for the
log line reporting non-convergence.
-/

namespace MLScratch

open Matrix

/-- Modelled from the spec: `initialise_zero` from the weight-initialisation
module (not part of the solver sources) is "a deterministic zero array"
(§6), so it returns the all-zero vector of the given length. -/
def initialise_zero (d : ℕ) : Fin d → ℚ := 0

/-- Modelled from the spec: the two-argument form of `initialise_zero`
producing an `n_features × n_classes` zero matrix for the multiclass
branch of `GradientDescent.solve`. -/
def initialise_zero2 (d k : ℕ) : Matrix (Fin d) (Fin k) ℚ := 0

/-- Modelled from the spec: `L2Regularization(alpha).gradient(w)` from the
loss-function module (not part of the solver sources) contributes "the
gradient `alpha * w`" (§4.3). -/
def l2grad (alpha : ℚ) {d : ℕ} (w : Fin d → ℚ) : Fin d → ℚ := alpha • w

/-- Modelled from the spec: the matrix-shaped `L2Regularization.gradient`
used by the multiclass branch, likewise `alpha * w` elementwise. -/
def l2gradM (alpha : ℚ) {d k : ℕ} (w : Matrix (Fin d) (Fin k) ℚ) :
    Matrix (Fin d) (Fin k) ℚ := alpha • w

/-- The elementwise `np.sign`: `1` on positives, `-1` on negatives, `0` at `0`. -/
def npSign (x : ℚ) : ℚ := if 0 < x then 1 else if x < 0 then -1 else 0

/-- The convergence test `(np.abs(w_new - w) < self.tol).all()` shared by
`GradientDescent.solve` and `LassoISTA.solve` (vector weights). -/
def allClose {d : ℕ} (tol : ℚ) (wNew w : Fin d → ℚ) : Bool :=
  decide (∀ i, |wNew i - w i| < tol)

/-- The convergence test `(np.abs(w_new - w) < self.tol).all()` for the
matrix-shaped weights of the multiclass branch. -/
def allCloseM {d k : ℕ} (tol : ℚ) (wNew w : Matrix (Fin d) (Fin k) ℚ) : Bool :=
  decide (∀ i j, |wNew i j - w i j| < tol)

/-- The `for _ in range(max_iterations)` loop shared by
`GradientDescent.solve` and `LassoISTA.solve`: each pass computes
`wNew = step w`; if the convergence test holds the loop returns `wNew`
with the converged flag (the source prints a convergence line and returns
`w_new`), otherwise it continues from `wNew`; on fuel exhaustion it
returns the last computed weights with the flag `false` (the source
prints a non-convergence line and returns `w`). -/
def iterLoop {V : Type} (step : V → V) (close : V → V → Bool) : ℕ → V → V × Bool
  | 0, w => (w, false)
  | fuel + 1, w =>
    let wNew := step w
    if close wNew w then (wNew, true) else iterLoop step close fuel wNew

namespace PInv

/-- `PInv.solve`: the closed-form expression
`np.dot(np.dot(np.linalg.pinv(np.dot(X.T, X) + self.alpha * np.eye(d)), X.T), y)`,
with `np.linalg.pinv` an abstract parameter `pinv`. -/
def solve {n d : ℕ} (pinv : Matrix (Fin d) (Fin d) ℚ → Matrix (Fin d) (Fin d) ℚ)
    (alpha : ℚ) (X : Matrix (Fin n) (Fin d) ℚ) (y : Fin n → ℚ) : Fin d → ℚ :=
  (pinv (Xᵀ * X + alpha • (1 : Matrix (Fin d) (Fin d) ℚ)) * Xᵀ) *ᵥ y

/-- Modelled from the spec: §7 prescribes a fail-fast precondition check
rejecting a negative `alpha` hyperparameter with an `InvalidHyperparameter`
error before any solving work; no such check appears in the solver sources,
so this checked variant is the spec-side contract used to compare against
the code. -/
def solveChecked {n d : ℕ}
    (pinv : Matrix (Fin d) (Fin d) ℚ → Matrix (Fin d) (Fin d) ℚ)
    (alpha : ℚ) (X : Matrix (Fin n) (Fin d) ℚ) (y : Fin n → ℚ) :
    Except String (Fin d → ℚ) :=
  if alpha < 0 then Except.error "InvalidHyperparameter"
  else Except.ok (solve pinv alpha X y)

end PInv

namespace GradientDescent

/-- The step-size resolution
`lr = self.learning_rate if self.learning_rate else auto_learning_rate_se(X)`:
Python truthiness, so both `None` and the float `0.0` select the automatic
learning rate. `auto` stands for the already-applied `auto_learning_rate_se(X)`. -/
def gdLearningRate (learningRate : Option ℚ) (auto : ℚ) : ℚ :=
  match learningRate with
  | some r => if r = 0 then auto else r
  | none => auto

/-- One iteration of the `GradientDescent.solve` loop body (1-dimensional `y`):
`y_pred = self.activation(np.dot(X, w))`,
`grad_w = np.dot(X.T, self.loss.gradient(y, y_pred)) + self.l2.gradient(w)`,
`w_new = w - lr * grad_w`. -/
def gdStepVec {n d : ℕ} (activation : (Fin n → ℚ) → Fin n → ℚ)
    (lossGradient : (Fin n → ℚ) → (Fin n → ℚ) → Fin n → ℚ)
    (alpha lr : ℚ) (X : Matrix (Fin n) (Fin d) ℚ) (y : Fin n → ℚ)
    (w : Fin d → ℚ) : Fin d → ℚ :=
  let yPred := activation (X *ᵥ w)
  let gradW := Xᵀ *ᵥ lossGradient y yPred + l2grad alpha w
  w - lr • gradW

/-- One iteration of the `GradientDescent.solve` loop body for the
multiclass branch (`y.ndim > 1`), with matrix-shaped weights. -/
def gdStepMat {n d k : ℕ}
    (activation : Matrix (Fin n) (Fin k) ℚ → Matrix (Fin n) (Fin k) ℚ)
    (lossGradient : Matrix (Fin n) (Fin k) ℚ → Matrix (Fin n) (Fin k) ℚ →
      Matrix (Fin n) (Fin k) ℚ)
    (alpha lr : ℚ) (X : Matrix (Fin n) (Fin d) ℚ) (y : Matrix (Fin n) (Fin k) ℚ)
    (w : Matrix (Fin d) (Fin k) ℚ) : Matrix (Fin d) (Fin k) ℚ :=
  let yPred := activation (X * w)
  let gradW := Xᵀ * lossGradient y yPred + l2gradM alpha w
  w - lr • gradW

/-- `GradientDescent.solve` on a 1-dimensional target `y`: resolve the
learning rate, initialise the weights to zero with length `d`, then run
the iteration loop.  `activation`, `lossGradient` and the heuristic
`autoLR` (`auto_learning_rate_se`) are abstract parameters. -/
def solveVec {n d : ℕ} (activation : (Fin n → ℚ) → Fin n → ℚ)
    (lossGradient : (Fin n → ℚ) → (Fin n → ℚ) → Fin n → ℚ)
    (alpha : ℚ) (maxIterations : ℕ) (tol : ℚ)
    (learningRate : Option ℚ) (autoLR : Matrix (Fin n) (Fin d) ℚ → ℚ)
    (X : Matrix (Fin n) (Fin d) ℚ) (y : Fin n → ℚ) : (Fin d → ℚ) × Bool :=
  let lr := gdLearningRate learningRate (autoLR X)
  let w := initialise_zero d
  iterLoop (gdStepVec activation lossGradient alpha lr X y) (allClose tol)
    maxIterations w

/-- `GradientDescent.solve` on a 2-dimensional target `y` (the
`y.ndim > 1` branch): weights are initialised as a `d × k` zero matrix. -/
def solveMat {n d k : ℕ}
    (activation : Matrix (Fin n) (Fin k) ℚ → Matrix (Fin n) (Fin k) ℚ)
    (lossGradient : Matrix (Fin n) (Fin k) ℚ → Matrix (Fin n) (Fin k) ℚ →
      Matrix (Fin n) (Fin k) ℚ)
    (alpha : ℚ) (maxIterations : ℕ) (tol : ℚ)
    (learningRate : Option ℚ) (autoLR : Matrix (Fin n) (Fin d) ℚ → ℚ)
    (X : Matrix (Fin n) (Fin d) ℚ) (y : Matrix (Fin n) (Fin k) ℚ) :
    Matrix (Fin d) (Fin k) ℚ × Bool :=
  let lr := gdLearningRate learningRate (autoLR X)
  let w := initialise_zero2 d k
  iterLoop (gdStepMat activation lossGradient alpha lr X y) (allCloseM tol)
    maxIterations w

end GradientDescent

namespace LassoISTA

/-- `LassoISTA._soft_threashold`:
`np.sign(lw) * np.maximum(np.abs(lw) - threshold, 0.0)` elementwise. -/
def softThreshold {d : ℕ} (lw : Fin d → ℚ) (threshold : ℚ) : Fin d → ℚ :=
  fun i => npSign (lw i) * max (|lw i| - threshold) 0

/-- One iteration of the `LassoISTA.solve` loop body:
`dl_dw = -X.T @ (y - X @ w_t)` and
`w_new = self._soft_threashold(w_t - dl_dw/rho, threshold)`. -/
def istaStep {n d : ℕ} (rho threshold : ℚ) (X : Matrix (Fin n) (Fin d) ℚ)
    (y : Fin n → ℚ) (wT : Fin d → ℚ) : Fin d → ℚ :=
  let dlDw := -(Xᵀ *ᵥ (y - X *ᵥ wT))
  softThreshold (fun i => wT i - dlDw i / rho) threshold

/-- `LassoISTA.solve`: initialise `w_t` to zero, compute
`rho = supremum_eigen(X.T @ X)` once, set
`threshold = n_samples * self.alpha / rho`, then run the iteration loop.
The eigenvalue estimate `supremum_eigen` (an external numeric primitive,
"the supremum eigenvalue of XᵀX" per the spec) is an abstract parameter. -/
def solve {n d : ℕ} (supEigen : Matrix (Fin d) (Fin d) ℚ → ℚ)
    (alpha : ℚ) (maxIterations : ℕ) (tol : ℚ)
    (X : Matrix (Fin n) (Fin d) ℚ) (y : Fin n → ℚ) : (Fin d → ℚ) × Bool :=
  let wT := initialise_zero d
  let rho := supEigen (Xᵀ * X)
  let threshold := (n : ℚ) * alpha / rho
  iterLoop (istaStep rho threshold X y) (allClose tol) maxIterations wT

end LassoISTA

/-! ## Loop lemmas shared by the iterative solvers -/

open GradientDescent

theorem iterLoop_iter_le {V : Type} (step : V → V) (close : V → V → Bool) :
    ∀ (fuel : ℕ) (w : V), ∃ t ≤ fuel, (iterLoop step close fuel w).1 = step^[t] w := by
  intro fuel
  induction fuel with
  | zero => exact fun w => ⟨0, Nat.le_refl 0, rfl⟩
  | succ f ih =>
    intro w
    cases hc : close (step w) w with
    | true =>
      refine ⟨1, Nat.succ_le_succ (Nat.zero_le f), ?_⟩
      simp [iterLoop, hc]
    | false =>
      obtain ⟨t, ht, hres⟩ := ih (step w)
      refine ⟨t + 1, Nat.succ_le_succ ht, ?_⟩
      simp only [iterLoop, hc, Bool.false_eq_true, if_false]
      rw [hres, Function.iterate_succ_apply]

theorem iterLoop_fix {V : Type} (step : V → V) (close : V → V → Bool)
    (fuel : ℕ) (w : V) (hw : step w = w) : (iterLoop step close fuel w).1 = w := by
  induction fuel with
  | zero => rfl
  | succ f ih =>
    simp only [iterLoop, hw]
    cases hc : close w w with
    | true => simp [hc]
    | false => simpa [hc] using ih

theorem iterLoop_exhaust {V : Type} (step : V → V) (close : V → V → Bool) :
    ∀ (fuel : ℕ) (w : V),
      (∀ t < fuel, close (step (step^[t] w)) (step^[t] w) = false) →
      iterLoop step close fuel w = (step^[fuel] w, false) := by
  intro fuel
  induction fuel with
  | zero => exact fun w _ => rfl
  | succ f ih =>
    intro w h
    have h0 : close (step w) w = false := by
      simpa using h 0 (Nat.succ_pos f)
    have hrest : ∀ t < f,
        close (step (step^[t] (step w))) (step^[t] (step w)) = false := by
      intro t ht
      have := h (t + 1) (Nat.succ_lt_succ ht)
      rwa [Function.iterate_succ_apply] at this
    simp only [iterLoop, h0, Bool.false_eq_true, if_false]
    rw [ih (step w) hrest, Function.iterate_succ_apply]

/-! ## Theorems -/

/-- C1: `PInv.solve(X, y)` returns exactly
`pinv(XᵀX + alpha * I_d) Xᵀ y` — a single closed-form expression with no
iteration or convergence check (`PInv.solve` is not defined through
`iterLoop`) — and with `alpha = 0` this is the ordinary-least-squares
pseudoinverse solution `pinv(XᵀX) Xᵀ y`. -/
theorem pinv_solve_closed_form {n d : ℕ}
    (pinv : Matrix (Fin d) (Fin d) ℚ → Matrix (Fin d) (Fin d) ℚ)
    (alpha : ℚ) (X : Matrix (Fin n) (Fin d) ℚ) (y : Fin n → ℚ) :
    PInv.solve pinv alpha X y =
      pinv (Xᵀ * X + alpha • (1 : Matrix (Fin d) (Fin d) ℚ)) *ᵥ (Xᵀ *ᵥ y) ∧
    PInv.solve pinv 0 X y = pinv (Xᵀ * X) *ᵥ (Xᵀ *ᵥ y) := by
  constructor
  · rw [PInv.solve, ← Matrix.mulVec_mulVec]
  · rw [PInv.solve, ← Matrix.mulVec_mulVec, zero_smul, add_zero]

/-- C2: `GradientDescent.solve` initialises the weights to all zeros —
of type `Fin d → ℚ` (shape `(d,)`) for a 1-dimensional `y`, and of type
`Matrix (Fin d) (Fin k) ℚ` (shape `(d, k)`) for a target of shape
`(n, k)` — and every iteration computes
`y_pred = activation(X · w)`, then
`grad = Xᵀ · loss.gradient(y, y_pred) + l2.gradient(w)` with the L2 term
`alpha • w` added to every component, then `w_new = w - lr * grad` with
the learning rate `lr` resolved once before the loop. -/
theorem gd_solve_formula :
    (∀ (n d : ℕ) (act : (Fin n → ℚ) → Fin n → ℚ)
      (lg : (Fin n → ℚ) → (Fin n → ℚ) → Fin n → ℚ)
      (alpha : ℚ) (mi : ℕ) (tol : ℚ) (lrOpt : Option ℚ)
      (autoLR : Matrix (Fin n) (Fin d) ℚ → ℚ)
      (X : Matrix (Fin n) (Fin d) ℚ) (y : Fin n → ℚ),
      solveVec act lg alpha mi tol lrOpt autoLR X y =
        iterLoop
          (fun w => w - gdLearningRate lrOpt (autoLR X) •
            (Xᵀ *ᵥ lg y (act (X *ᵥ w)) + alpha • w))
          (allClose tol) mi (fun _ => 0)) ∧
    (∀ (n d k : ℕ)
      (act : Matrix (Fin n) (Fin k) ℚ → Matrix (Fin n) (Fin k) ℚ)
      (lg : Matrix (Fin n) (Fin k) ℚ → Matrix (Fin n) (Fin k) ℚ →
        Matrix (Fin n) (Fin k) ℚ)
      (alpha : ℚ) (mi : ℕ) (tol : ℚ) (lrOpt : Option ℚ)
      (autoLR : Matrix (Fin n) (Fin d) ℚ → ℚ)
      (X : Matrix (Fin n) (Fin d) ℚ) (y : Matrix (Fin n) (Fin k) ℚ),
      solveMat act lg alpha mi tol lrOpt autoLR X y =
        iterLoop
          (fun w => w - gdLearningRate lrOpt (autoLR X) •
            (Xᵀ * lg y (act (X * w)) + alpha • w))
          (allCloseM tol) mi (0 : Matrix (Fin d) (Fin k) ℚ)) :=
  ⟨fun _ _ _ _ _ _ _ _ _ _ _ => rfl, fun _ _ _ _ _ _ _ _ _ _ _ _ => rfl⟩

/-- C3: `LassoISTA.solve` starts from the zero vector of length `d`, uses
a single application of `supremum_eigen` to `XᵀX` performed before the
loop (so the solver result depends on the eigenvalue oracle only through
its value at `XᵀX`), uses the fixed threshold `n * alpha / rho`, and each
iteration computes `dl_dw = -Xᵀ(y - Xw)`, forms `lw = w - dl_dw / rho`,
and soft-thresholds `lw` at the threshold. -/
theorem ista_solve_formula :
    (∀ (n d : ℕ) (supEigen : Matrix (Fin d) (Fin d) ℚ → ℚ)
      (alpha : ℚ) (mi : ℕ) (tol : ℚ)
      (X : Matrix (Fin n) (Fin d) ℚ) (y : Fin n → ℚ),
      LassoISTA.solve supEigen alpha mi tol X y =
        iterLoop
          (fun w => LassoISTA.softThreshold
            (fun i => w i - (-(Xᵀ *ᵥ (y - X *ᵥ w))) i / supEigen (Xᵀ * X))
            ((n : ℚ) * alpha / supEigen (Xᵀ * X)))
          (allClose tol) mi (fun _ => 0)) ∧
    (∀ (n d : ℕ) (supEigen1 supEigen2 : Matrix (Fin d) (Fin d) ℚ → ℚ)
      (alpha : ℚ) (mi : ℕ) (tol : ℚ)
      (X : Matrix (Fin n) (Fin d) ℚ) (y : Fin n → ℚ),
      supEigen1 (Xᵀ * X) = supEigen2 (Xᵀ * X) →
      LassoISTA.solve supEigen1 alpha mi tol X y =
        LassoISTA.solve supEigen2 alpha mi tol X y) := by
  constructor
  · exact fun _ _ _ _ _ _ _ _ => rfl
  · intro n d supEigen1 supEigen2 alpha mi tol X y h
    simp only [LassoISTA.solve, h]

/-- Companion witness for C3: two different eigenvalue oracles agreeing at
`XᵀX` give the same solver result on a concrete problem. -/
theorem ista_solve_formula_witness :
    (fun _ : Matrix (Fin 1) (Fin 1) ℚ => (2 : ℚ))
        ((1 : Matrix (Fin 1) (Fin 1) ℚ)ᵀ * 1) =
      (fun M : Matrix (Fin 1) (Fin 1) ℚ => M 0 0 + 1)
        ((1 : Matrix (Fin 1) (Fin 1) ℚ)ᵀ * 1) ∧
    LassoISTA.solve (fun _ => (2 : ℚ)) 1 3 1 (1 : Matrix (Fin 1) (Fin 1) ℚ) ![1] =
      LassoISTA.solve (fun M => M 0 0 + 1) 1 3 1 (1 : Matrix (Fin 1) (Fin 1) ℚ) ![1] := by
  have h : (fun _ : Matrix (Fin 1) (Fin 1) ℚ => (2 : ℚ))
        ((1 : Matrix (Fin 1) (Fin 1) ℚ)ᵀ * 1) =
      (fun M : Matrix (Fin 1) (Fin 1) ℚ => M 0 0 + 1)
        ((1 : Matrix (Fin 1) (Fin 1) ℚ)ᵀ * 1) := by
    simp [Matrix.one_apply_eq]
    norm_num
  exact ⟨h, ista_solve_formula.2 1 1 _ _ 1 3 1 1 ![1] h⟩

/-- C5: in the shared solver loop, if every component of `|w_new - w|` is
strictly below `tol` the loop stops at that iteration and returns `w_new`
(not `w`) with the converged flag; if even one component is `≥ tol` it
continues with the remaining budget.  `allClose` is exactly the strict
all-components test, so early termination happens if and only if every
component is strictly within `tol`.  Both `GradientDescent.solve` and
`LassoISTA.solve` run `iterLoop` with this test (their definitions above). -/
theorem convergence_check :
    ∀ (d : ℕ) (step : (Fin d → ℚ) → Fin d → ℚ) (tol : ℚ) (fuel : ℕ)
      (w : Fin d → ℚ),
      (allClose tol (step w) w = true ↔ ∀ i, |step w i - w i| < tol) ∧
      ((∀ i, |step w i - w i| < tol) →
        iterLoop step (allClose tol) (fuel + 1) w = (step w, true)) ∧
      ((∃ i, tol ≤ |step w i - w i|) →
        iterLoop step (allClose tol) (fuel + 1) w =
          iterLoop step (allClose tol) fuel (step w)) := by
  intro d step tol fuel w
  refine ⟨by simp [allClose], ?_, ?_⟩
  · intro hall
    have hc : allClose tol (step w) w = true := by simpa [allClose] using hall
    simp [iterLoop, hc]
  · rintro ⟨i, hi⟩
    have hc : allClose tol (step w) w = false := by
      simp only [allClose, decide_eq_false_iff_not, not_forall, not_lt]
      exact ⟨i, hi⟩
    simp [iterLoop, hc]

/-- Companion witness for C5 on a concrete converging gradient-descent step. -/
theorem convergence_check_witness :
    (∀ i, |gdStepVec id (fun y yPred => yPred - y) 0 1
        (1 : Matrix (Fin 1) (Fin 1) ℚ) (fun _ => 0) (fun _ => 0) i -
        (fun _ : Fin 1 => (0 : ℚ)) i| < 1) ∧
    iterLoop (gdStepVec id (fun y yPred => yPred - y) 0 1
        (1 : Matrix (Fin 1) (Fin 1) ℚ) (fun _ => 0)) (allClose 1) 1
        (fun _ => 0) =
      (gdStepVec id (fun y yPred => yPred - y) 0 1
        (1 : Matrix (Fin 1) (Fin 1) ℚ) (fun _ => 0) (fun _ => 0), true) := by
  have hall : ∀ i, |gdStepVec id (fun y yPred => yPred - y) 0 1
      (1 : Matrix (Fin 1) (Fin 1) ℚ) (fun _ => 0) (fun _ => 0) i -
      (fun _ : Fin 1 => (0 : ℚ)) i| < 1 := by
    intro i
    simp [gdStepVec, l2grad, Matrix.one_mulVec]
  exact ⟨hall,
    (convergence_check 1 (gdStepVec id (fun y yPred => yPred - y) 0 1
      (1 : Matrix (Fin 1) (Fin 1) ℚ) (fun _ => 0)) 1 0 (fun _ => 0)).2.1 hall⟩

/-- C4: the soft-threshold operator of `LassoISTA` maps each component to
`sign(lw i) * max(|lw i| - t, 0)`; it is exactly `0` whenever `|lw i| ≤ t`,
and otherwise shrinks the component by `t` toward zero while preserving its
sign; on `lw = [-5, -0.5, 0, 0.5, 5]` with `t = 1` it yields
`[-4, 0, 0, 0, 4]`. -/
theorem softThreshold_spec :
    (∀ (d : ℕ) (lw : Fin d → ℚ) (t : ℚ), 0 ≤ t →
      (∀ i, LassoISTA.softThreshold lw t i = npSign (lw i) * max (|lw i| - t) 0) ∧
      (∀ i, |lw i| ≤ t → LassoISTA.softThreshold lw t i = 0) ∧
      (∀ i, t < |lw i| →
        LassoISTA.softThreshold lw t i = lw i - npSign (lw i) * t ∧
        npSign (LassoISTA.softThreshold lw t i) = npSign (lw i))) ∧
    LassoISTA.softThreshold ![-5, -1/2, 0, 1/2, 5] 1 = ![-4, 0, 0, 0, 4] := by
  constructor
  · intro d lw t ht
    refine ⟨fun i => rfl, fun i hi => ?_, fun i hi => ?_⟩
    · have h0 : max (|lw i| - t) 0 = 0 := max_eq_right (by linarith)
      simp [LassoISTA.softThreshold, h0]
    · have h0 : max (|lw i| - t) 0 = |lw i| - t := max_eq_left (by linarith)
      have habs : 0 < |lw i| := lt_of_le_of_lt ht hi
      rcases lt_trichotomy (lw i) 0 with hneg | hzero | hpos
      · have hs : npSign (lw i) = -1 := by
          simp [npSign, hneg, not_lt_of_gt hneg]
        have habs2 : |lw i| = -(lw i) := abs_of_neg hneg
        have hres : LassoISTA.softThreshold lw t i = lw i + t := by
          show npSign (lw i) * max (|lw i| - t) 0 = lw i + t
          rw [h0, hs, habs2]; ring
        refine ⟨?_, ?_⟩
        · rw [hres, hs]; ring
        · have hlt : lw i + t < 0 := by
            rw [habs2] at hi; linarith
          rw [hres, hs]
          simp [npSign, hlt, not_lt_of_gt hlt]
      · rw [hzero] at habs; simp at habs
      · have hs : npSign (lw i) = 1 := by simp [npSign, hpos]
        have habs2 : |lw i| = lw i := abs_of_pos hpos
        have hres : LassoISTA.softThreshold lw t i = lw i - t := by
          show npSign (lw i) * max (|lw i| - t) 0 = lw i - t
          rw [h0, hs, habs2]; ring
        refine ⟨?_, ?_⟩
        · rw [hres, hs]; ring
        · have hgt : 0 < lw i - t := by rw [habs2] at hi; linarith
          rw [hres, hs]
          simp [npSign, hgt]
  · funext i
    fin_cases i <;>
      norm_num [LassoISTA.softThreshold, npSign, max_def, abs_eq_max_neg]

/-- C6: if the convergence check fails at every one of the
`max_iterations` passes, the iterative solvers still return the last
computed weights together with the non-convergence signal (the `false`
flag modelling the non-convergence log line); the loop is a total
function, so non-convergence never produces an error.  Stated for the
iteration step `S` of `GradientDescent.solve` (1-d branch) and of
`LassoISTA.solve`. -/
theorem solver_soft_failure :
    (∀ (n d : ℕ) (act : (Fin n → ℚ) → Fin n → ℚ)
      (lg : (Fin n → ℚ) → (Fin n → ℚ) → Fin n → ℚ)
      (alpha : ℚ) (mi : ℕ) (tol : ℚ) (lrOpt : Option ℚ)
      (autoLR : Matrix (Fin n) (Fin d) ℚ → ℚ)
      (X : Matrix (Fin n) (Fin d) ℚ) (y : Fin n → ℚ)
      (S : (Fin d → ℚ) → Fin d → ℚ),
      S = gdStepVec act lg alpha (gdLearningRate lrOpt (autoLR X)) X y →
      (∀ t < mi, allClose tol (S (S^[t] (initialise_zero d)))
        (S^[t] (initialise_zero d)) = false) →
      solveVec act lg alpha mi tol lrOpt autoLR X y =
        (S^[mi] (initialise_zero d), false)) ∧
    (∀ (n d : ℕ) (supEigen : Matrix (Fin d) (Fin d) ℚ → ℚ)
      (alpha : ℚ) (mi : ℕ) (tol : ℚ)
      (X : Matrix (Fin n) (Fin d) ℚ) (y : Fin n → ℚ)
      (S : (Fin d → ℚ) → Fin d → ℚ),
      S = LassoISTA.istaStep (supEigen (Xᵀ * X))
        ((n : ℚ) * alpha / supEigen (Xᵀ * X)) X y →
      (∀ t < mi, allClose tol (S (S^[t] (initialise_zero d)))
        (S^[t] (initialise_zero d)) = false) →
      LassoISTA.solve supEigen alpha mi tol X y =
        (S^[mi] (initialise_zero d), false)) := by
  constructor
  · intro n d act lg alpha mi tol lrOpt autoLR X y S hS h
    subst hS
    exact iterLoop_exhaust _ _ mi _ h
  · intro n d supEigen alpha mi tol X y S hS h
    subst hS
    exact iterLoop_exhaust _ _ mi _ h

/-- Companion witness for C6: a concrete two-iteration run with a
convergence tolerance that never holds, ending in the soft-failure flag. -/
theorem solver_soft_failure_witness :
    ((gdStepVec id (fun y yPred => yPred - y) 0
        (gdLearningRate (some 0) ((fun _ => (1 : ℚ)) (1 : Matrix (Fin 1) (Fin 1) ℚ)))
        (1 : Matrix (Fin 1) (Fin 1) ℚ) ![1] : (Fin 1 → ℚ) → Fin 1 → ℚ) =
      gdStepVec id (fun y yPred => yPred - y) 0
        (gdLearningRate (some 0) ((fun _ => (1 : ℚ)) (1 : Matrix (Fin 1) (Fin 1) ℚ)))
        (1 : Matrix (Fin 1) (Fin 1) ℚ) ![1]) ∧
    (∀ t < 2, allClose (-1)
      ((gdStepVec id (fun y yPred => yPred - y) 0
          (gdLearningRate (some 0) ((fun _ => (1 : ℚ)) (1 : Matrix (Fin 1) (Fin 1) ℚ)))
          (1 : Matrix (Fin 1) (Fin 1) ℚ) ![1])
        ((gdStepVec id (fun y yPred => yPred - y) 0
          (gdLearningRate (some 0) ((fun _ => (1 : ℚ)) (1 : Matrix (Fin 1) (Fin 1) ℚ)))
          (1 : Matrix (Fin 1) (Fin 1) ℚ) ![1])^[t] (initialise_zero 1)))
      ((gdStepVec id (fun y yPred => yPred - y) 0
          (gdLearningRate (some 0) ((fun _ => (1 : ℚ)) (1 : Matrix (Fin 1) (Fin 1) ℚ)))
          (1 : Matrix (Fin 1) (Fin 1) ℚ) ![1])^[t] (initialise_zero 1)) = false) ∧
    solveVec id (fun y yPred => yPred - y) 0 2 (-1) (some 0) (fun _ => 1)
        (1 : Matrix (Fin 1) (Fin 1) ℚ) ![1] =
      ((gdStepVec id (fun y yPred => yPred - y) 0
          (gdLearningRate (some 0) ((fun _ => (1 : ℚ)) (1 : Matrix (Fin 1) (Fin 1) ℚ)))
          (1 : Matrix (Fin 1) (Fin 1) ℚ) ![1])^[2] (initialise_zero 1), false) := by
  have hfalse : ∀ t < 2, allClose (-1)
      ((gdStepVec id (fun y yPred => yPred - y) 0
          (gdLearningRate (some 0) ((fun _ => (1 : ℚ)) (1 : Matrix (Fin 1) (Fin 1) ℚ)))
          (1 : Matrix (Fin 1) (Fin 1) ℚ) ![1])
        ((gdStepVec id (fun y yPred => yPred - y) 0
          (gdLearningRate (some 0) ((fun _ => (1 : ℚ)) (1 : Matrix (Fin 1) (Fin 1) ℚ)))
          (1 : Matrix (Fin 1) (Fin 1) ℚ) ![1])^[t] (initialise_zero 1)))
      ((gdStepVec id (fun y yPred => yPred - y) 0
          (gdLearningRate (some 0) ((fun _ => (1 : ℚ)) (1 : Matrix (Fin 1) (Fin 1) ℚ)))
          (1 : Matrix (Fin 1) (Fin 1) ℚ) ![1])^[t] (initialise_zero 1)) = false := by
    intro t _
    simp only [allClose, decide_eq_false_iff_not, not_forall, not_lt]
    exact ⟨0, le_trans (by norm_num) (abs_nonneg _)⟩
  exact ⟨rfl, hfalse, solver_soft_failure.1 1 1 _ _ 0 2 (-1) (some 0)
    (fun _ => 1) 1 ![1] _ rfl hfalse⟩

/-- C8: every solver terminates and uses a bounded loop: the weights
returned by the iterative solvers are the iteration step applied at most
`max_iterations` times to the zero initialisation (the loop executes at
most `max_iterations` passes), and `PInv.solve` is a single closed-form
expression with no loop at all.  The returned weights have the shape of
the target convention by type: `Fin d → ℚ` for a 1-dimensional `y` and
`Matrix (Fin d) (Fin k) ℚ` for a one-hot `y` of shape `(n, k)`. -/
theorem solver_termination :
    (∀ (n d : ℕ) (act : (Fin n → ℚ) → Fin n → ℚ)
      (lg : (Fin n → ℚ) → (Fin n → ℚ) → Fin n → ℚ)
      (alpha : ℚ) (mi : ℕ) (tol : ℚ) (lrOpt : Option ℚ)
      (autoLR : Matrix (Fin n) (Fin d) ℚ → ℚ)
      (X : Matrix (Fin n) (Fin d) ℚ) (y : Fin n → ℚ),
      ∃ t ≤ mi, (solveVec act lg alpha mi tol lrOpt autoLR X y).1 =
        (gdStepVec act lg alpha (gdLearningRate lrOpt (autoLR X)) X y)^[t]
          (initialise_zero d)) ∧
    (∀ (n d k : ℕ)
      (act : Matrix (Fin n) (Fin k) ℚ → Matrix (Fin n) (Fin k) ℚ)
      (lg : Matrix (Fin n) (Fin k) ℚ → Matrix (Fin n) (Fin k) ℚ →
        Matrix (Fin n) (Fin k) ℚ)
      (alpha : ℚ) (mi : ℕ) (tol : ℚ) (lrOpt : Option ℚ)
      (autoLR : Matrix (Fin n) (Fin d) ℚ → ℚ)
      (X : Matrix (Fin n) (Fin d) ℚ) (y : Matrix (Fin n) (Fin k) ℚ),
      ∃ t ≤ mi, (solveMat act lg alpha mi tol lrOpt autoLR X y).1 =
        (gdStepMat act lg alpha (gdLearningRate lrOpt (autoLR X)) X y)^[t]
          (initialise_zero2 d k)) ∧
    (∀ (n d : ℕ) (supEigen : Matrix (Fin d) (Fin d) ℚ → ℚ)
      (alpha : ℚ) (mi : ℕ) (tol : ℚ)
      (X : Matrix (Fin n) (Fin d) ℚ) (y : Fin n → ℚ),
      ∃ t ≤ mi, (LassoISTA.solve supEigen alpha mi tol X y).1 =
        (LassoISTA.istaStep (supEigen (Xᵀ * X))
          ((n : ℚ) * alpha / supEigen (Xᵀ * X)) X y)^[t]
          (initialise_zero d)) ∧
    (∀ (n d : ℕ) (pinv : Matrix (Fin d) (Fin d) ℚ → Matrix (Fin d) (Fin d) ℚ)
      (alpha : ℚ) (X : Matrix (Fin n) (Fin d) ℚ) (y : Fin n → ℚ),
      PInv.solve pinv alpha X y =
        (pinv (Xᵀ * X + alpha • (1 : Matrix (Fin d) (Fin d) ℚ)) * Xᵀ) *ᵥ y) := by
  refine ⟨?_, ?_, ?_, fun _ _ _ _ _ _ => rfl⟩
  · intro n d act lg alpha mi tol lrOpt autoLR X y
    exact iterLoop_iter_le _ _ mi _
  · intro n d k act lg alpha mi tol lrOpt autoLR X y
    exact iterLoop_iter_le _ _ mi _
  · intro n d supEigen alpha mi tol X y
    exact iterLoop_iter_le _ _ mi _

/-- C9: for any fixed problem `(X, y)` — with the eigenvalue oracle
returning a positive value at `XᵀX`, as the supremum eigenvalue of a
Gram matrix it models is — there is a large enough `alpha` (the
threshold `n * alpha / rho` then dominates every component of the first
candidate `Xᵀy / rho`) for which `LassoISTA.solve` returns the all-zero
weight vector, whatever the tolerance and iteration budget. -/
theorem ista_sparsity (n d : ℕ) (supEigen : Matrix (Fin d) (Fin d) ℚ → ℚ)
    (maxIterations : ℕ) (tol : ℚ) (X : Matrix (Fin n) (Fin d) ℚ)
    (y : Fin n → ℚ) (hrho : 0 < supEigen (Xᵀ * X)) :
    ∃ alpha, 0 ≤ alpha ∧
      (LassoISTA.solve supEigen alpha maxIterations tol X y).1 = fun _ => 0 := by
  set rho := supEigen (Xᵀ * X) with hrhodef
  set g : Fin d → ℚ := Xᵀ *ᵥ y with hgdef
  set S : ℚ := ∑ i, |g i| with hSdef
  have hS0 : 0 ≤ S := Finset.sum_nonneg fun i _ => abs_nonneg _
  refine ⟨S, hS0, ?_⟩
  have hbound : ∀ i, |g i| ≤ (n : ℚ) * S := by
    intro i
    rcases Nat.eq_zero_or_pos n with hn | hn
    · subst hn
      have hgz : g i = 0 := by
        simp [hgdef, Matrix.mulVec, dotProduct]
      simp [hgz]
    · have h1 : |g i| ≤ S :=
        Finset.single_le_sum (fun j _ => abs_nonneg (g j)) (Finset.mem_univ i)
      have h2 : (1 : ℚ) ≤ (n : ℚ) := by exact_mod_cast hn
      nlinarith
  have hfix : LassoISTA.istaStep rho ((n : ℚ) * S / rho) X y
      (initialise_zero d) = initialise_zero d := by
    have hlw : (fun i => initialise_zero d i -
        (-(Xᵀ *ᵥ (y - X *ᵥ initialise_zero d))) i / rho) =
        fun i => g i / rho := by
      funext i
      simp [initialise_zero, hgdef, neg_div]
    show LassoISTA.softThreshold (fun i => initialise_zero d i -
        (-(Xᵀ *ᵥ (y - X *ᵥ initialise_zero d))) i / rho) ((n : ℚ) * S / rho) =
      initialise_zero d
    rw [hlw]
    funext i
    have hle : |g i / rho| ≤ (n : ℚ) * S / rho := by
      rw [abs_div, abs_of_pos hrho]
      exact div_le_div_of_nonneg_right (hbound i) hrho.le
    show npSign (g i / rho) * max (|g i / rho| - (n : ℚ) * S / rho) 0 = 0
    rw [max_eq_right (by linarith), mul_zero]
  have hres : (LassoISTA.solve supEigen S maxIterations tol X y).1 =
      initialise_zero d :=
    iterLoop_fix _ _ maxIterations _ hfix
  exact hres

/-- Companion witness for C9 on a concrete one-feature problem with a
positive eigenvalue oracle. -/
theorem ista_sparsity_witness :
    0 < (fun _ : Matrix (Fin 1) (Fin 1) ℚ => (2 : ℚ))
        ((1 : Matrix (Fin 1) (Fin 1) ℚ)ᵀ * 1) ∧
    ∃ alpha, 0 ≤ alpha ∧
      (LassoISTA.solve (fun _ => (2 : ℚ)) alpha 3 1
        (1 : Matrix (Fin 1) (Fin 1) ℚ) ![1]).1 = fun _ => 0 :=
  ⟨by norm_num,
    ista_sparsity 1 1 (fun _ => (2 : ℚ)) 3 1 1 ![1] (by norm_num)⟩

/-- C10 counterexample: the claim says a constructed `learning_rate` of
`0.0` is used as the step size, but the source resolves the step size by
Python truthiness (`self.learning_rate if self.learning_rate else
auto_learning_rate_se(X)`), so `0.0` falls back to the automatic
heuristic: on a concrete problem, `solve` with `learning_rate = 0`
differs from the loop that actually uses step size `0`. -/
theorem lr_zero_counterexample :
    solveVec id (fun y yPred => yPred - y) 0 1 1 (some 0) (fun _ => 1)
        (1 : Matrix (Fin 1) (Fin 1) ℚ) ![1] ≠
      iterLoop (gdStepVec id (fun y yPred => yPred - y) 0 0
          (1 : Matrix (Fin 1) (Fin 1) ℚ) ![1]) (allClose 1) 1
        (initialise_zero 1) := by
  have hstep0 : gdStepVec id (fun y yPred => yPred - y) 0 0
      (1 : Matrix (Fin 1) (Fin 1) ℚ) ![1] (initialise_zero 1) =
      initialise_zero 1 := by
    funext i
    simp [gdStepVec, l2grad]
  have hR : iterLoop (gdStepVec id (fun y yPred => yPred - y) 0 0
      (1 : Matrix (Fin 1) (Fin 1) ℚ) ![1]) (allClose 1) 1
      (initialise_zero 1) = (initialise_zero 1, true) := by
    have hc : allClose 1 (initialise_zero 1) (initialise_zero 1) = true := by
      simp [allClose]
    simp [iterLoop, hc, hstep0]
  have hstep1 : gdStepVec id (fun y yPred => yPred - y) 0 1
      (1 : Matrix (Fin 1) (Fin 1) ℚ) ![1] (initialise_zero 1) = ![1] := by
    funext i
    fin_cases i
    simp [gdStepVec, l2grad, initialise_zero, Matrix.one_mulVec,
      Matrix.mulVec_zero]
  have hlr : gdLearningRate (some 0)
      ((fun _ : Matrix (Fin 1) (Fin 1) ℚ => (1 : ℚ))
        (1 : Matrix (Fin 1) (Fin 1) ℚ)) = 1 := by
    simp [gdLearningRate]
  have hL : solveVec id (fun y yPred => yPred - y) 0 1 1 (some 0)
      (fun _ => 1) (1 : Matrix (Fin 1) (Fin 1) ℚ) ![1] = (![1], false) := by
    show iterLoop (gdStepVec id (fun y yPred => yPred - y) 0
        (gdLearningRate (some 0) ((fun _ : Matrix (Fin 1) (Fin 1) ℚ => (1 : ℚ))
          (1 : Matrix (Fin 1) (Fin 1) ℚ)))
        (1 : Matrix (Fin 1) (Fin 1) ℚ) ![1]) (allClose 1) 1
        (initialise_zero 1) = (![1], false)
    rw [hlr]
    have hc : allClose 1 ![1] (initialise_zero 1) = false := by
      simp only [allClose, decide_eq_false_iff_not, not_forall, not_lt]
      refine ⟨0, ?_⟩
      norm_num [initialise_zero]
    simp [iterLoop, hc, hstep1]
  rw [hL, hR]
  intro h
  exact Bool.false_ne_true (congrArg Prod.snd h)

/-- C10 amended: a provided nonzero `learning_rate` is used as the fixed
step size for every update; when the `learning_rate` is absent or equals
`0.0` (both falsy in the source's truthiness test), the step size is the
automatic heuristic computed from `X`.  The matrix branch resolves the
step size by the same rule. -/
theorem lr_resolution :
    (∀ (r : ℚ), r ≠ 0 →
      ∀ (n d : ℕ) (act : (Fin n → ℚ) → Fin n → ℚ)
        (lg : (Fin n → ℚ) → (Fin n → ℚ) → Fin n → ℚ)
        (alpha : ℚ) (mi : ℕ) (tol : ℚ)
        (autoLR : Matrix (Fin n) (Fin d) ℚ → ℚ)
        (X : Matrix (Fin n) (Fin d) ℚ) (y : Fin n → ℚ),
        solveVec act lg alpha mi tol (some r) autoLR X y =
          iterLoop (gdStepVec act lg alpha r X y) (allClose tol) mi
            (initialise_zero d)) ∧
    (∀ (n d : ℕ) (act : (Fin n → ℚ) → Fin n → ℚ)
      (lg : (Fin n → ℚ) → (Fin n → ℚ) → Fin n → ℚ)
      (alpha : ℚ) (mi : ℕ) (tol : ℚ)
      (autoLR : Matrix (Fin n) (Fin d) ℚ → ℚ)
      (X : Matrix (Fin n) (Fin d) ℚ) (y : Fin n → ℚ),
      solveVec act lg alpha mi tol none autoLR X y =
        iterLoop (gdStepVec act lg alpha (autoLR X) X y) (allClose tol) mi
          (initialise_zero d)) ∧
    (∀ (n d : ℕ) (act : (Fin n → ℚ) → Fin n → ℚ)
      (lg : (Fin n → ℚ) → (Fin n → ℚ) → Fin n → ℚ)
      (alpha : ℚ) (mi : ℕ) (tol : ℚ)
      (autoLR : Matrix (Fin n) (Fin d) ℚ → ℚ)
      (X : Matrix (Fin n) (Fin d) ℚ) (y : Fin n → ℚ),
      solveVec act lg alpha mi tol (some 0) autoLR X y =
        iterLoop (gdStepVec act lg alpha (autoLR X) X y) (allClose tol) mi
          (initialise_zero d)) ∧
    (∀ (n d k : ℕ)
      (act : Matrix (Fin n) (Fin k) ℚ → Matrix (Fin n) (Fin k) ℚ)
      (lg : Matrix (Fin n) (Fin k) ℚ → Matrix (Fin n) (Fin k) ℚ →
        Matrix (Fin n) (Fin k) ℚ)
      (alpha : ℚ) (mi : ℕ) (tol : ℚ) (lrOpt : Option ℚ)
      (autoLR : Matrix (Fin n) (Fin d) ℚ → ℚ)
      (X : Matrix (Fin n) (Fin d) ℚ) (y : Matrix (Fin n) (Fin k) ℚ),
      solveMat act lg alpha mi tol lrOpt autoLR X y =
        iterLoop (gdStepMat act lg alpha (gdLearningRate lrOpt (autoLR X)) X y)
          (allCloseM tol) mi (initialise_zero2 d k)) := by
  refine ⟨?_, ?_, ?_, fun _ _ _ _ _ _ _ _ _ _ _ _ => rfl⟩
  · intro r hr n d act lg alpha mi tol autoLR X y
    show iterLoop (gdStepVec act lg alpha (gdLearningRate (some r) (autoLR X))
        X y) (allClose tol) mi (initialise_zero d) = _
    rw [gdLearningRate, if_neg hr]
  · intro n d act lg alpha mi tol autoLR X y
    rfl
  · intro n d act lg alpha mi tol autoLR X y
    show iterLoop (gdStepVec act lg alpha (gdLearningRate (some 0) (autoLR X))
        X y) (allClose tol) mi (initialise_zero d) = _
    rw [gdLearningRate, if_pos rfl]

/-- Companion witness for C10 at the nonzero learning rate `1`. -/
theorem lr_resolution_witness :
    (1 : ℚ) ≠ 0 ∧
    solveVec id (fun y yPred => yPred - y) 0 1 1 (some 1) (fun _ => 5)
        (1 : Matrix (Fin 1) (Fin 1) ℚ) ![1] =
      iterLoop (gdStepVec id (fun y yPred => yPred - y) 0 1
          (1 : Matrix (Fin 1) (Fin 1) ℚ) ![1]) (allClose 1) 1
        (initialise_zero 1) :=
  ⟨by norm_num,
    lr_resolution.1 1 (by norm_num) 1 1 id (fun y yPred => yPred - y) 0 1 1
      (fun _ => 5) 1 ![1]⟩

/-- C7 counterexample: the spec-side fail-fast contract
(`PInv.solveChecked`, modelled from §7) rejects a negative `alpha` with
an `InvalidHyperparameter` error, but at the same input the source
`PInv.solve` silently accepts `alpha = -1` and returns an ordinary
weight vector — no precondition check exists in the code. -/
theorem precondition_check_counterexample :
    PInv.solveChecked id (-1) (1 : Matrix (Fin 1) (Fin 1) ℚ) ![1] =
      Except.error "InvalidHyperparameter" ∧
    PInv.solve id (-1) (1 : Matrix (Fin 1) (Fin 1) ℚ) ![1] = fun _ => 0 := by
  constructor
  · rw [PInv.solveChecked, if_pos (by norm_num)]
  · show (id ((1 : Matrix (Fin 1) (Fin 1) ℚ)ᵀ * 1 +
        (-1 : ℚ) • (1 : Matrix (Fin 1) (Fin 1) ℚ)) *
        (1 : Matrix (Fin 1) (Fin 1) ℚ)ᵀ) *ᵥ ![1] = fun _ => 0
    rw [Matrix.transpose_one, Matrix.one_mul, neg_smul, one_smul,
      add_neg_cancel, id_eq, Matrix.zero_mul, Matrix.zero_mulVec]
    rfl

/-- C7 amended: the solvers perform no precondition validation at all: a
negative `alpha` is silently accepted and each solver computes its usual
result with it (no error of any kind is produced); shape conformance is
not checked by the solver layer either. -/
theorem negative_alpha_accepted (alpha : ℚ) (hneg : alpha < 0) :
    (∀ (n d : ℕ) (pinv : Matrix (Fin d) (Fin d) ℚ → Matrix (Fin d) (Fin d) ℚ)
      (X : Matrix (Fin n) (Fin d) ℚ) (y : Fin n → ℚ),
      PInv.solve pinv alpha X y =
        (pinv (Xᵀ * X + alpha • (1 : Matrix (Fin d) (Fin d) ℚ)) * Xᵀ) *ᵥ y) ∧
    (∀ (n d : ℕ) (act : (Fin n → ℚ) → Fin n → ℚ)
      (lg : (Fin n → ℚ) → (Fin n → ℚ) → Fin n → ℚ)
      (mi : ℕ) (tol : ℚ) (lrOpt : Option ℚ)
      (autoLR : Matrix (Fin n) (Fin d) ℚ → ℚ)
      (X : Matrix (Fin n) (Fin d) ℚ) (y : Fin n → ℚ),
      solveVec act lg alpha mi tol lrOpt autoLR X y =
        iterLoop (gdStepVec act lg alpha (gdLearningRate lrOpt (autoLR X)) X y)
          (allClose tol) mi (initialise_zero d)) ∧
    (∀ (n d : ℕ) (supEigen : Matrix (Fin d) (Fin d) ℚ → ℚ)
      (mi : ℕ) (tol : ℚ) (X : Matrix (Fin n) (Fin d) ℚ) (y : Fin n → ℚ),
      LassoISTA.solve supEigen alpha mi tol X y =
        iterLoop (LassoISTA.istaStep (supEigen (Xᵀ * X))
          ((n : ℚ) * alpha / supEigen (Xᵀ * X)) X y)
          (allClose tol) mi (initialise_zero d)) :=
  ⟨fun _ _ _ _ _ => rfl, fun _ _ _ _ _ _ _ _ _ _ => rfl,
    fun _ _ _ _ _ _ _ => rfl⟩

/-- Companion witness for C7's amended statement at `alpha = -1`. -/
theorem negative_alpha_accepted_witness :
    (-1 : ℚ) < 0 ∧
    PInv.solve id (-1) (1 : Matrix (Fin 1) (Fin 1) ℚ) ![1] =
      (id ((1 : Matrix (Fin 1) (Fin 1) ℚ)ᵀ * 1 +
        (-1 : ℚ) • (1 : Matrix (Fin 1) (Fin 1) ℚ)) *
        (1 : Matrix (Fin 1) (Fin 1) ℚ)ᵀ) *ᵥ ![1] :=
  ⟨by norm_num, (negative_alpha_accepted (-1) (by norm_num)).1 1 1 id 1 ![1]⟩

/-- Companion witness for C4 at the concrete input of the spec's unit test. -/
theorem softThreshold_spec_witness :
    (0 : ℚ) ≤ 1 ∧
      LassoISTA.softThreshold ![-5, -1/2, 0, 1/2, 5] 1 2 = 0 :=
  ⟨by norm_num,
    ((softThreshold_spec.1 5 ![-5, -1/2, 0, 1/2, 5] 1 (by norm_num)).2.1 2
      (by norm_num))⟩

end MLScratch
